import Mathlib

/-!
Shallow embedding of `cover.py` (book-cover → three press PDFs pipeline).

Modelling conventions:
* A PIL raster image is a structure with `width`, `height` and a total pixel
  function `px : ℕ → ℕ → Pixel`; pixel values outside `[0,width) × [0,height)`
  are irrelevant, and image equality is extensional equality on the in-bounds
  region (`Img.Eq`).  A pixel color (an RGB tuple in PIL) is abstracted as a
  single natural number, with black (the fill color of `Image.new("RGB", _)`
  and of out-of-bounds crop padding) being `0`.
* `Image.crop` follows Pillow: it raises `ValueError` when the box has
  `right < left` or `lower < upper` (modelled as `.error .invalidRegion`),
  and otherwise returns an image of exactly the box's size, padding any part
  of the box outside the source with black.
* `Image.paste(img, (x, y))` overwrites the destination rectangle with the
  source pixels; `Image.paste(color, box)` fills the box with the color.
* `Image.resize` (used only by `add_stretched_border`) is modelled by
  `pilResize`, which follows Pillow's control flow: the source is returned
  unchanged when the requested size equals its size; a requested dimension
  of 0 otherwise raises `ValueError: height and width must be > 0` (the
  `xsize < 1 || ysize < 1` check in `_imaging.c`); otherwise an image of
  exactly the requested size is produced.  Only the resampling arithmetic
  itself (floating-point convolution) stays abstract, as the `resample`
  parameter supplying the resampled pixels.
* pikepdf `Decimal` arithmetic in `add_bleed_box` is modelled as exact
  rational arithmetic; Python exceptions raised before `pdf.save` are the
  `.error` results (so an `.error` result means the output file is never
  written), and the `.ok` value is the document persisted to the output path.
-/

namespace BookCover

/-- A pixel color; PIL RGB tuples are abstracted as a single value, black = 0. -/
abbrev Pixel := ℕ

/-- A raster image: dimensions plus a total pixel function.  Only the values
of `px` at coordinates inside `[0,width) × [0,height)` are meaningful. -/
structure Img where
  width : ℕ
  height : ℕ
  px : ℕ → ℕ → Pixel

/-- Extensional image equality: same dimensions and same in-bounds pixels. -/
def Img.Eq (a b : Img) : Prop :=
  a.width = b.width ∧ a.height = b.height ∧
    ∀ x y, x < a.width → y < a.height → a.px x y = b.px x y

/-- The `ValueError`s raised by Pillow's raster region operations:
`invalidRegion` for `Image.crop` on a box whose coordinates are reversed
(`Coordinate 'right' is less than 'left'` / `Coordinate 'lower' is less
than 'upper'`), and `sizeNotPositive` for `Image.resize` to a zero
dimension (`height and width must be > 0`). -/
inductive CropErr where
  | invalidRegion
  | sizeNotPositive
deriving DecidableEq

/-- Pillow `Image.crop((l, u, r, b))`: fails when `r < l` or `b < u`;
otherwise returns a `(r-l) × (b-u)` image whose pixel `(x, y)` is the source
pixel at `(l+x, u+y)` when that lies inside the source, black otherwise. -/
def Img.crop (img : Img) (l u r b : ℤ) : Except CropErr Img :=
  if r < l then .error .invalidRegion
  else if b < u then .error .invalidRegion
  else .ok ⟨(r - l).toNat, (b - u).toNat, fun x y =>
    if 0 ≤ l + (x : ℤ) ∧ l + (x : ℤ) < (img.width : ℤ) ∧
        0 ≤ u + (y : ℤ) ∧ u + (y : ℤ) < (img.height : ℤ) then
      img.px (l + (x : ℤ)).toNat (u + (y : ℤ)).toNat
    else 0⟩

/-- Pillow `dest.paste(src, (ox, oy))` (in-place in PIL; value-passing here):
overwrites the rectangle `[ox, ox+src.width) × [oy, oy+src.height)`. -/
def Img.paste (dest src : Img) (ox oy : ℕ) : Img :=
  ⟨dest.width, dest.height, fun x y =>
    if ox ≤ x ∧ x < ox + src.width ∧ oy ≤ y ∧ y < oy + src.height then
      src.px (x - ox) (y - oy)
    else dest.px x y⟩

/-- Pillow `dest.paste(color, (l, u, r, b))`: fills the box with the color. -/
def Img.fill (dest : Img) (c : Pixel) (l u r b : ℕ) : Img :=
  ⟨dest.width, dest.height, fun x y =>
    if l ≤ x ∧ x < r ∧ u ≤ y ∧ y < b then c else dest.px x y⟩

/-- Pillow `Image.new("RGB", (w, h))`: a black image. -/
def Img.new (w h : ℕ) : Img := ⟨w, h, fun _ _ => 0⟩

/-- Pillow `Image.getpixel((x, y))` (used in-bounds by the source). -/
def Img.getpixel (img : Img) (x y : ℕ) : Pixel := img.px x y

/-- `split_book_cover(image, back_width, front_width)` from `cover.py`:
three crops, executed back, spine, front in order; the first crop failure
propagates. -/
def split_book_cover (image : Img) (back_width front_width : ℤ) :
    Except CropErr (Img × Img × Img) :=
  let original_width : ℤ := image.width
  let original_height : ℤ := image.height
  let spine_width := original_width - back_width - front_width
  let front_offset := original_width - front_width
  do
    let back_img ← image.crop 0 0 back_width original_height
    let spine_img ← image.crop back_width 0 (back_width + spine_width) original_height
    let front_img ← image.crop front_offset 0 original_width original_height
    return (back_img, spine_img, front_img)

/-- Errors of `concatenate_images_horizontally`: the explicit `ValueError`
for mismatched heights, and the `IndexError` from `images[0]` on an empty
list. -/
inductive ConcatErr where
  | dimensionMismatch
  | indexError
deriving DecidableEq

/-- `concatenate_images_horizontally(images)` from `cover.py`:
`len(set(heights)) > 1` is modelled as `heights.dedup.length > 1`; the pastes
into the fresh black image are the `foldl`, threading `current_width`. -/
def concatenate_images_horizontally (images : List Img) : Except ConcatErr Img :=
  let heights := images.map Img.height
  if heights.dedup.length > 1 then
    .error .dimensionMismatch
  else
    let total_width := (images.map Img.width).sum
    match images with
    | [] => .error .indexError
    | img0 :: _ =>
      let height := img0.height
      let concatenated_image := Img.new total_width height
      let result := images.foldl
        (fun acc img => (acc.1.paste img acc.2 0, acc.2 + img.width)) (concatenated_image, 0)
      .ok result.1

/-- Pillow `Image.resize((tw, th))`: the source is returned unchanged when
the requested size equals its size; otherwise a requested dimension of 0
raises `ValueError: height and width must be > 0`; otherwise an image of
exactly the requested size is produced, its resampled pixel contents
supplied by the abstract `resample` parameter. -/
def pilResize (resample : Img → ℕ → ℕ → Img) (image : Img) (tw th : ℕ) :
    Except CropErr Img :=
  if image.width = tw ∧ image.height = th then .ok image
  else if tw < 1 ∨ th < 1 then .error .sizeNotPositive
  else .ok ⟨tw, th, fun x y => (resample image tw th).px x y⟩

/-- `add_stretched_border(image, border_size_px, stretch_pixel_width)` from
`cover.py`.  The four `Image.resize` calls go through `pilResize`
(`resample` is the abstract resampling arithmetic); the source's
crops/pastes/fills are translated line for line. -/
def add_stretched_border (resample : Img → ℕ → ℕ → Img) (image : Img)
    (border_size_px : ℕ) (stretch_pixel_width : ℕ) : Except CropErr Img := do
  let width := image.width
  let height := image.height
  let spw := min stretch_pixel_width (min width height)
  let lb ← image.crop 0 0 (spw : ℤ) (height : ℤ)
  let left_border ← pilResize resample lb border_size_px height
  let rb ← image.crop ((width : ℤ) - (spw : ℤ)) 0 (width : ℤ) (height : ℤ)
  let right_border ← pilResize resample rb border_size_px height
  let tb ← image.crop 0 0 (width : ℤ) (spw : ℤ)
  let top_border ← pilResize resample tb width border_size_px
  let bb ← image.crop 0 ((height : ℤ) - (spw : ℤ)) (width : ℤ) (height : ℤ)
  let bottom_border ← pilResize resample bb width border_size_px
  let new_width := width + 2 * border_size_px
  let new_height := height + 2 * border_size_px
  let i0 := Img.new new_width new_height
  let i1 := i0.paste image border_size_px border_size_px
  let i2 := i1.paste left_border 0 border_size_px
  let i3 := i2.paste right_border (new_width - border_size_px) border_size_px
  let i4 := i3.paste top_border border_size_px 0
  let i5 := i4.paste bottom_border border_size_px (new_height - border_size_px)
  let i6 := i5.fill (image.getpixel 0 0) 0 0 border_size_px border_size_px
  let i7 := i6.fill (image.getpixel (width - 1) 0)
    (new_width - border_size_px) 0 new_width border_size_px
  let i8 := i7.fill (image.getpixel 0 (height - 1))
    0 (new_height - border_size_px) border_size_px new_height
  let i9 := i8.fill (image.getpixel (width - 1) (height - 1))
    (new_width - border_size_px) (new_height - border_size_px) new_width new_height
  return i9

/-- A PDF rectangle (MediaBox / BleedBox), four user-space coordinates. -/
structure PdfRect where
  x0 : ℚ
  y0 : ℚ
  x1 : ℚ
  y1 : ℚ
deriving DecidableEq

/-- Failures of `add_bleed_box` before `pdf.save`: the two `assert`
statements and Python `Decimal` division by zero. -/
inductive BleedErr where
  | pageCountAssert
  | scaleAssert
  | divisionByZero
deriving DecidableEq

/-- The document persisted by `pdf.save(output_pdf_path)`: the page's
MediaBox together with the BleedBox that was set on it. -/
structure SavedPdf where
  mediaBox : PdfRect
  bleedBox : PdfRect
deriving DecidableEq

/-- `add_bleed_box` from `cover.py`, after the external one-page render step:
`pages` is the rendered PDF's page list (each page its MediaBox).  Decimal
arithmetic is exact rational arithmetic here; any `.error` is an uncaught
Python exception raised before `pdf.save`, so the output file at
`output_pdf_path` is written exactly when the result is `.ok`. -/
def add_bleed_box (pages : List PdfRect) (full_width_px full_height_px : ℕ)
    (left_offset_px bottom_offset_px right_offset_px top_offset_px : ℤ) :
    Except BleedErr SavedPdf :=
  match pages with
  | [page] =>
    let media_box := page
    let media_box_width := media_box.x1 - media_box.x0
    let media_box_height := media_box.y1 - media_box.y0
    if full_width_px = 0 then .error .divisionByZero
    else
      let unit_per_px : ℚ := media_box_width / (full_width_px : ℚ)
      if full_height_px = 0 then .error .divisionByZero
      else if unit_per_px = media_box_height / (full_height_px : ℚ) then
        let bleed_box : PdfRect :=
          ⟨media_box.x0 + left_offset_px * unit_per_px,
           media_box.y0 + top_offset_px * unit_per_px,
           media_box.x1 - right_offset_px * unit_per_px,
           media_box.y1 - bottom_offset_px * unit_per_px⟩
        .ok ⟨media_box, bleed_box⟩
      else .error .scaleAssert
  | _ => .error .pageCountAssert

/-- `dpi = 300` in `main`. -/
def dpi : ℕ := 300

/-- `target_height_in = 8.5` (exact in binary floating point). -/
def target_height_in : ℚ := 17 / 2

/-- `target_width_in = 11 / 2.0` (exact in binary floating point). -/
def target_width_in : ℚ := 11 / 2

/-- `target_spine_width = 0.65`; the float product `0.65 * 300` rounds to
exactly `195.0`, so exact rational arithmetic gives the same truncation. -/
def target_spine_width : ℚ := 13 / 20

/-- `target_cover_width_px = int(target_width_in * dpi)` (truncation of a
positive value = floor). -/
def target_cover_width_px : ℕ := (target_width_in * (dpi : ℚ)).floor.toNat

/-- `target_height_px = int(target_height_in * dpi)`. -/
def target_height_px : ℕ := (target_height_in * (dpi : ℚ)).floor.toNat

/-- `target_spine_width_px = int(target_spine_width * dpi)`. -/
def target_spine_width_px : ℕ := (target_spine_width * (dpi : ℚ)).floor.toNat

/-- `bleed_size_in = 0.125` (exact in binary floating point). -/
def bleed_size_in : ℚ := 1 / 8

/-- `bleed_size_px = int(bleed_size_in * dpi)`. -/
def bleed_size_px : ℕ := (bleed_size_in * (dpi : ℚ)).floor.toNat

/-- The arguments of one `add_bleed_box` call issued by `main`, in the
source's keyword order. -/
structure BleedCall where
  output_pdf_path : String
  full_width_px : ℕ
  full_height_px : ℕ
  left_offset_px : ℕ
  bottom_offset_px : ℕ
  right_offset_px : ℕ
  top_offset_px : ℕ
deriving DecidableEq

/-- The three `add_bleed_box` calls of `main` (`back.pdf`, `spine.pdf`,
`front.pdf`), with the numeric arguments exactly as computed there. -/
def main_bleed_calls : List BleedCall :=
  [⟨"back.pdf", target_cover_width_px + bleed_size_px,
     target_height_px + 2 * bleed_size_px,
     bleed_size_px, bleed_size_px, 0, bleed_size_px⟩,
   ⟨"spine.pdf", target_spine_width_px,
     target_height_px + 2 * bleed_size_px,
     0, bleed_size_px, 0, bleed_size_px⟩,
   ⟨"front.pdf", target_cover_width_px + bleed_size_px,
     target_height_px + 2 * bleed_size_px,
     0, bleed_size_px, bleed_size_px, bleed_size_px⟩]

/-- A simple nearest-neighbor-style resampler, used to instantiate the
abstract `resample` parameter of `add_stretched_border` on concrete
inputs. -/
def sampleResize (i : Img) (w h : ℕ) : Img :=
  ⟨w, h, fun x y => i.px (x * i.width / w) (y * i.height / h)⟩

/-- A crop box lying (partly) outside a source image: a coordinate before
the image's origin, past its far edge, or a reversed (overlapping-widths)
box. -/
def rect_outside (img : Img) (l u r b : ℤ) : Prop :=
  l < 0 ∨ u < 0 ∨ (img.width : ℤ) < r ∨ (img.height : ℤ) < b ∨ r < l ∨ b < u

/-- The horizontal offset at which `concatenate_images_horizontally` pastes
the `k`-th input: the sum of the widths of the previous inputs. -/
def widthsBefore (images : List Img) (k : ℕ) : ℕ :=
  ((images.take k).map Img.width).sum

/-- Monadic bind on a successful `Except` computation. -/
@[simp] lemma except_ok_bind {ε α β : Type} (a : α) (f : α → Except ε β) :
    (Except.ok a : Except ε α) >>= f = f a := rfl

/-- Monadic bind on a failed `Except` computation. -/
@[simp] lemma except_error_bind {ε α β : Type} (e : ε) (f : α → Except ε β) :
    (Except.error e : Except ε α) >>= f = .error e := rfl

/-- `pure` on `Except` is `Except.ok`. -/
@[simp] lemma except_pure {ε α : Type} (a : α) :
    (pure a : Except ε α) = .ok a := rfl

/-- `Image.crop` fails exactly on reversed boxes. -/
lemma crop_error {l u r b : ℤ} (img : Img) (h : r < l ∨ b < u) :
    img.crop l u r b = .error .invalidRegion := by
  unfold Img.crop
  split_ifs with h1 h2
  · rfl
  · rfl
  · omega

/-- `Image.crop` on a non-reversed box: the cropped image, explicitly. -/
lemma crop_ok {l u r b : ℤ} (img : Img) (h1 : l ≤ r) (h2 : u ≤ b) :
    img.crop l u r b = .ok ⟨(r - l).toNat, (b - u).toNat, fun x y =>
      if 0 ≤ l + (x : ℤ) ∧ l + (x : ℤ) < (img.width : ℤ) ∧
          0 ≤ u + (y : ℤ) ∧ u + (y : ℤ) < (img.height : ℤ) then
        img.px (l + (x : ℤ)).toNat (u + (y : ℤ)).toNat
      else 0⟩ := by
  unfold Img.crop
  rw [if_neg (not_lt.2 h1), if_neg (not_lt.2 h2)]

/-- Dimensions of a successful crop. -/
lemma crop_dims {l u r b : ℤ} {img c : Img}
    (hc : img.crop l u r b = .ok c) :
    c.width = (r - l).toNat ∧ c.height = (b - u).toNat := by
  unfold Img.crop at hc
  split_ifs at hc
  obtain rfl := Except.ok.inj hc
  exact ⟨rfl, rfl⟩

/-- Pixels of a successful crop, inside the source bounds. -/
lemma crop_px {l u r b : ℤ} {img c : Img}
    (hc : img.crop l u r b = .ok c) (x y : ℕ)
    (hx1 : 0 ≤ l + (x : ℤ)) (hx2 : l + (x : ℤ) < (img.width : ℤ))
    (hy1 : 0 ≤ u + (y : ℤ)) (hy2 : u + (y : ℤ) < (img.height : ℤ)) :
    c.px x y = img.px (l + (x : ℤ)).toNat (u + (y : ℤ)).toNat := by
  unfold Img.crop at hc
  split_ifs at hc
  obtain rfl := Except.ok.inj hc
  exact if_pos ⟨hx1, hx2, hy1, hy2⟩

/-- A valid split succeeds, and its three images are the three crops. -/
lemma split_book_cover_ok (img : Img) (b f : ℕ) (hbf : b + f ≤ img.width) :
    ∃ bk sp fr, split_book_cover img (b : ℤ) (f : ℤ) = .ok (bk, sp, fr) ∧
      img.crop 0 0 (b : ℤ) (img.height : ℤ) = .ok bk ∧
      img.crop (b : ℤ) 0 ((b : ℤ) + ((img.width : ℤ) - (b : ℤ) - (f : ℤ)))
        (img.height : ℤ) = .ok sp ∧
      img.crop ((img.width : ℤ) - (f : ℤ)) 0 (img.width : ℤ)
        (img.height : ℤ) = .ok fr := by
  have e1 := @crop_ok 0 0 (b : ℤ) (img.height : ℤ) img (by omega) (by omega)
  have e2 := @crop_ok (b : ℤ) 0
    ((b : ℤ) + ((img.width : ℤ) - (b : ℤ) - (f : ℤ))) (img.height : ℤ) img
    (by omega) (by omega)
  have e3 := @crop_ok ((img.width : ℤ) - (f : ℤ)) 0 (img.width : ℤ)
    (img.height : ℤ) img (by omega) (by omega)
  rcases hsp : split_book_cover img (b : ℤ) (f : ℤ) with e | ⟨bk, sp, fr⟩
  · simp only [split_book_cover, e1, e2, e3, except_ok_bind, except_pure] at hsp
    exact Except.noConfusion hsp
  · have h' := hsp
    simp only [split_book_cover, e1, e2, e3, except_ok_bind, except_pure,
      Except.ok.injEq, Prod.mk.injEq] at h'
    obtain ⟨hA, hB, hC⟩ := h'
    exact ⟨bk, sp, fr, rfl, by rw [e1, hA], by rw [e2, hB], by rw [e3, hC]⟩

/-- Evaluation rule for `Rat.floor` on explicit rationals. -/
lemma rat_floor_eq_of_le_of_lt (q : ℚ) (z : ℤ) (h1 : (z : ℚ) ≤ q)
    (h2 : q < z + 1) : Rat.floor q = z := by
  have a := Rat.le_floor.2 h1
  have b : ¬ (z + 1 : ℤ) ≤ Rat.floor q := fun hh =>
    absurd (Rat.le_floor.1 hh) (by push_cast; exact not_le.2 h2)
  omega

/-- `bleed_size_px` evaluates to `37` (`int(0.125 * 300)`). -/
lemma bleed_size_px_eq : bleed_size_px = 37 := by
  unfold bleed_size_px
  rw [rat_floor_eq_of_le_of_lt (bleed_size_in * (dpi : ℚ)) 37
    (by norm_num [bleed_size_in, dpi]) (by norm_num [bleed_size_in, dpi])]
  rfl

/-- C9: in every run of `main` the bleed border is `int(0.125 * 300) = 37`
pixels, and the three `add_bleed_box` calls give the spine-adjacent edges a
zero offset and every outward-facing edge the bleed-size offset: back has
`(left, bottom, right, top) = (37, 37, 0, 37)`, spine `(0, 37, 0, 37)`,
front `(0, 37, 37, 37)`. -/
theorem main_bleed_calls_offsets :
    bleed_size_px = 37 ∧
    main_bleed_calls.map (fun c => (c.output_pdf_path, c.left_offset_px,
        c.bottom_offset_px, c.right_offset_px, c.top_offset_px)) =
      [("back.pdf", 37, 37, 0, 37), ("spine.pdf", 0, 37, 0, 37),
       ("front.pdf", 0, 37, 37, 37)] := by
  refine ⟨bleed_size_px_eq, ?_⟩
  simp [main_bleed_calls, bleed_size_px_eq]

/-- C10: `concatenate_images_horizontally` on the empty list does not fail
with the dimension-mismatch error and does not succeed: the height-uniformity
check passes vacuously (`len(set([])) = 0`), and the function fails reading
`images[0]` (an `IndexError`). -/
theorem concatenate_empty_index_error :
    concatenate_images_horizontally [] = .error .indexError := by
  rfl

/-- C1: every `add_bleed_box` call that passes its assertions writes the
bleed box `[media[0] + l·u, media[1] + t·u, media[2] - r·u, media[3] - b·u]`
with `u = media_width / full_width_px` — the top offset lands on the media
box's second coordinate and the bottom offset on its fourth (the swapped
vertical mapping). -/
theorem add_bleed_box_formula (pages : List PdfRect) (fw fh : ℕ)
    (l b r t : ℤ) (s : SavedPdf)
    (h : add_bleed_box pages fw fh l b r t = .ok s) :
    ∃ m, pages = [m] ∧
      s.bleedBox = ⟨m.x0 + l * ((m.x1 - m.x0) / (fw : ℚ)),
                    m.y0 + t * ((m.x1 - m.x0) / (fw : ℚ)),
                    m.x1 - r * ((m.x1 - m.x0) / (fw : ℚ)),
                    m.y1 - b * ((m.x1 - m.x0) / (fw : ℚ))⟩ := by
  match pages with
  | [] => exact absurd h (by simp [add_bleed_box])
  | m1 :: m2 :: rest => exact absurd h (by simp [add_bleed_box])
  | [m] =>
    refine ⟨m, rfl, ?_⟩
    unfold add_bleed_box at h
    simp only at h
    split_ifs at h
    cases h
    rfl

/-- Witness for C1: with `media = [0,0,1700,1133]`, `full_width_px = 1700`,
`full_height_px = 1133` and all four offsets `37`, the assertions pass and
the bleed box is `[37, 37, 1663, 1096]`. -/
theorem add_bleed_box_formula_witness :
    ∃ s, add_bleed_box [⟨0, 0, 1700, 1133⟩] 1700 1133 37 37 37 37 = .ok s ∧
      s.bleedBox = ⟨37, 37, 1663, 1096⟩ := by
  have h : add_bleed_box [⟨0, 0, 1700, 1133⟩] 1700 1133 37 37 37 37 =
      .ok ⟨⟨0, 0, 1700, 1133⟩, ⟨37, 37, 1663, 1096⟩⟩ := by
    unfold add_bleed_box
    norm_num
  refine ⟨_, h, ?_⟩
  obtain ⟨m, hm, hb⟩ := add_bleed_box_formula _ _ _ _ _ _ _ _ h
  simp only [List.cons.injEq, and_true] at hm
  subst hm
  rw [hb]
  norm_num

/-- C7: `add_bleed_box` fails (and hence the output PDF is never written)
whenever the rendered document does not have exactly one page, or the media
box's width/height ratio does not match `full_width_px / full_height_px`
under exact comparison. -/
theorem add_bleed_box_assert_failure (pages : List PdfRect) (fw fh : ℕ)
    (l b r t : ℤ)
    (h : pages.length ≠ 1 ∨ ∃ m, pages = [m] ∧
        (m.x1 - m.x0) / (fw : ℚ) ≠ (m.y1 - m.y0) / (fh : ℚ)) :
    ∃ e, add_bleed_box pages fw fh l b r t = .error e := by
  rcases h with h | ⟨m, rfl, hne⟩
  · match pages, h with
    | [], _ => exact ⟨.pageCountAssert, rfl⟩
    | m1 :: m2 :: rest, _ => exact ⟨.pageCountAssert, rfl⟩
    | [m], h => exact absurd rfl h
  · rcases eq_or_ne fw 0 with h0 | h0
    · exact ⟨.divisionByZero, by simp [add_bleed_box, h0]⟩
    · rcases eq_or_ne fh 0 with h1 | h1
      · exact ⟨.divisionByZero, by simp [add_bleed_box, h0, h1]⟩
      · exact ⟨.scaleAssert, by simp [add_bleed_box, h0, h1, hne]⟩

/-- Witness for C7: a `100 × 50` media box with `full_width_px =
full_height_px = 100` has mismatched ratios (`1 ≠ 1/2`), so the call fails. -/
theorem add_bleed_box_assert_failure_witness :
    ∃ e, add_bleed_box [⟨0, 0, 100, 50⟩] 100 100 0 0 0 0 = .error e :=
  add_bleed_box_assert_failure _ _ _ _ _ _ _
    (Or.inr ⟨⟨0, 0, 100, 50⟩, rfl, by norm_num⟩)

/-- C2: for every image and every `back_width, front_width ≥ 0` with
`back_width + front_width ≤ width`, `split_book_cover` succeeds and returns
images of widths `back_width`, `width - back_width - front_width`,
`front_width`, all of the original height. -/
theorem split_book_cover_dims (img : Img) (b f : ℕ)
    (hbf : b + f ≤ img.width) :
    ∃ bk sp fr, split_book_cover img (b : ℤ) (f : ℤ) = .ok (bk, sp, fr) ∧
      bk.width = b ∧ sp.width = img.width - b - f ∧ fr.width = f ∧
      bk.height = img.height ∧ sp.height = img.height ∧
      fr.height = img.height := by
  obtain ⟨bk, sp, fr, hsp, h1, h2, h3⟩ := split_book_cover_ok img b f hbf
  obtain ⟨w1, hh1⟩ := crop_dims h1
  obtain ⟨w2, hh2⟩ := crop_dims h2
  obtain ⟨w3, hh3⟩ := crop_dims h3
  exact ⟨bk, sp, fr, hsp, by omega, by omega, by omega, by omega, by omega,
    by omega⟩

/-- Witness for C2: a `3 × 2` image split at `back_width = front_width = 1`
yields widths `1, 1, 1` and heights `2, 2, 2`. -/
theorem split_book_cover_dims_witness :
    1 + 1 ≤ (Img.mk 3 2 fun _ _ => 0).width ∧
    ∃ bk sp fr,
      split_book_cover (Img.mk 3 2 fun _ _ => 0) (1 : ℕ) (1 : ℕ) =
        .ok (bk, sp, fr) ∧
      bk.width = 1 ∧ sp.width = (Img.mk 3 2 fun _ _ => 0).width - 1 - 1 ∧
      fr.width = 1 ∧ bk.height = (Img.mk 3 2 fun _ _ => 0).height ∧
      sp.height = (Img.mk 3 2 fun _ _ => 0).height ∧
      fr.height = (Img.mk 3 2 fun _ _ => 0).height :=
  ⟨by decide, split_book_cover_dims (Img.mk 3 2 fun _ _ => 0) 1 1 (by decide)⟩

/-- C8: whenever one of the three crop rectangles computed by
`split_book_cover` lies outside the source image (overlapping widths or
widths exceeding the bounds), the call fails with the invalid-region error
of the underlying crop operation. -/
theorem split_book_cover_out_of_bounds (img : Img) (bw fw : ℤ)
    (h : rect_outside img 0 0 bw (img.height : ℤ) ∨
         rect_outside img bw 0 ((img.width : ℤ) - fw) (img.height : ℤ) ∨
         rect_outside img ((img.width : ℤ) - fw) 0 (img.width : ℤ)
           (img.height : ℤ)) :
    split_book_cover img bw fw = .error .invalidRegion := by
  have key : bw < 0 ∨ (0 ≤ bw ∧ (img.width : ℤ) < bw + fw) ∨
      (0 ≤ bw ∧ bw + fw ≤ (img.width : ℤ) ∧ fw < 0) := by
    unfold rect_outside at h
    rcases h with h | h | h <;> omega
  rcases key with hk | ⟨hb0, hk⟩ | ⟨hb0, hk1, hk2⟩
  · have e1 := @crop_error 0 0 bw (img.height : ℤ) img (Or.inl hk)
    simp only [split_book_cover, e1, except_error_bind]
  · have e1 := @crop_ok 0 0 bw (img.height : ℤ) img (by omega) (by omega)
    have e2 := @crop_error bw 0 (bw + ((img.width : ℤ) - bw - fw))
      (img.height : ℤ) img (Or.inl (by omega))
    simp only [split_book_cover, e1, except_ok_bind, e2, except_error_bind]
  · have e1 := @crop_ok 0 0 bw (img.height : ℤ) img (by omega) (by omega)
    have e2 := @crop_ok bw 0 (bw + ((img.width : ℤ) - bw - fw))
      (img.height : ℤ) img (by omega) (by omega)
    have e3 := @crop_error ((img.width : ℤ) - fw) 0 (img.width : ℤ)
      (img.height : ℤ) img (Or.inl (by omega))
    simp only [split_book_cover, e1, e2, except_ok_bind, e3,
      except_error_bind]

/-- Witness for C8: on a `2 × 1` image, `back_width = 5, front_width = 0`
makes the spine rectangle reversed (widths overlap the bounds), and the
split fails with the invalid-region error. -/
theorem split_book_cover_out_of_bounds_witness :
    split_book_cover (Img.mk 2 1 fun _ _ => 0) 5 0 = .error .invalidRegion :=
  split_book_cover_out_of_bounds (Img.mk 2 1 fun _ _ => 0) 5 0
    (Or.inr (Or.inl (by unfold rect_outside; simp)))

/-- `len(set(l)) ≤ 1` exactly when all elements of `l` are equal. -/
lemma dedup_length_le_one_iff (l : List ℕ) :
    l.dedup.length ≤ 1 ↔ ∀ a ∈ l, ∀ b ∈ l, a = b := by
  constructor
  · intro h a ha b hb
    have ha' : a ∈ l.dedup := List.mem_dedup.2 ha
    have hb' : b ∈ l.dedup := List.mem_dedup.2 hb
    cases hd : l.dedup with
    | nil => rw [hd] at ha'; exact absurd ha' (List.not_mem_nil a)
    | cons x xs =>
      rw [hd] at h ha' hb'
      cases xs with
      | nil =>
        simp only [List.mem_singleton] at ha' hb'
        rw [ha', hb']
      | cons y ys => simp at h
  · intro h
    have hnd : l.dedup.Nodup := l.nodup_dedup
    cases hd : l.dedup with
    | nil => simp
    | cons x xs =>
      cases xs with
      | nil => simp
      | cons y ys =>
        exfalso
        have hx : x ∈ l := List.mem_dedup.1 (hd ▸ List.mem_cons_self x _)
        have hy : y ∈ l := List.mem_dedup.1
          (hd ▸ List.mem_cons_of_mem x (List.mem_cons_self y _))
        rw [hd] at hnd
        have : x ≠ y := by
          intro hxy
          exact (List.nodup_cons.1 hnd).1 (hxy ▸ List.mem_cons_self y _)
        exact this (h x hx y hy)

/-- The compositor's paste fold does not change the accumulator's size. -/
lemma concat_foldl_dims : ∀ (l : List Img) (acc : Img) (cw : ℕ),
    ((l.foldl (fun acc img => (acc.1.paste img acc.2 0, acc.2 + img.width))
        (acc, cw)).1.width = acc.width) ∧
    ((l.foldl (fun acc img => (acc.1.paste img acc.2 0, acc.2 + img.width))
        (acc, cw)).1.height = acc.height) := by
  intro l
  induction l with
  | nil => exact fun acc cw => ⟨rfl, rfl⟩
  | cons i t ih =>
    intro acc cw
    simp only [List.foldl_cons]
    exact ih (acc.paste i cw 0) (cw + i.width)

/-- The compositor's paste fold leaves pixels left of `cw` unchanged. -/
lemma concat_foldl_untouched : ∀ (l : List Img) (acc : Img) (cw x y : ℕ),
    x < cw →
    ((l.foldl (fun acc img => (acc.1.paste img acc.2 0, acc.2 + img.width))
        (acc, cw)).1.px x y = acc.px x y) := by
  intro l
  induction l with
  | nil => exact fun acc cw x y _ => rfl
  | cons i t ih =>
    intro acc cw x y hx
    simp only [List.foldl_cons]
    rw [ih (acc.paste i cw 0) (cw + i.width) x y (by omega)]
    simp only [Img.paste]
    rw [if_neg (by omega)]

/-- The compositor's paste fold puts the `k`-th image's pixels at horizontal
offset `cw + widthsBefore l k`. -/
lemma concat_foldl_place : ∀ (l : List Img) (acc : Img) (cw k : ℕ)
    (hk : k < l.length) (x y : ℕ),
    x < (l.get ⟨k, hk⟩).width → y < (l.get ⟨k, hk⟩).height →
    ((l.foldl (fun acc img => (acc.1.paste img acc.2 0, acc.2 + img.width))
        (acc, cw)).1.px (cw + widthsBefore l k + x) y =
      (l.get ⟨k, hk⟩).px x y) := by
  intro l
  induction l with
  | nil => intro acc cw k hk; exact absurd hk (by simp)
  | cons i t ih =>
    intro acc cw k hk x y hx hy
    cases k with
    | zero =>
      simp only [List.foldl_cons]
      have hwb : widthsBefore (i :: t) 0 = 0 := rfl
      rw [hwb]
      have hx' : x < i.width := hx
      have hy' : y < i.height := hy
      rw [concat_foldl_untouched t (acc.paste i cw 0) (cw + i.width)
        (cw + 0 + x) y (by omega)]
      simp only [Img.paste]
      rw [if_pos (by omega)]
      have ha : cw + 0 + x - cw = x := by omega
      have hb : y - 0 = y := by omega
      rw [ha, hb]
      rfl
    | succ k' =>
      simp only [List.foldl_cons]
      have hwb : widthsBefore (i :: t) (k' + 1) =
          i.width + widthsBefore t k' := by
        simp [widthsBefore, List.take_succ_cons]
      rw [hwb]
      have hco : cw + (i.width + widthsBefore t k') + x =
          (cw + i.width) + widthsBefore t k' + x := by omega
      rw [hco]
      exact ih (acc.paste i cw 0) (cw + i.width) k'
        (by simpa using hk) x y hx hy

/-- C6: on a non-empty list, `concatenate_images_horizontally` fails with
the dimension-mismatch error exactly when two inputs have different heights
(and that is the only failure); on success the output width is the sum of
the input widths, the output height is the common height, and each input is
pasted left to right at the offset `widthsBefore`, with no gaps or
overlaps.  Failure returns no image at all (no partial write). -/
theorem concatenate_spec (images : List Img) (hne : images ≠ []) :
    ((concatenate_images_horizontally images = .error .dimensionMismatch) ↔
        ∃ a ∈ images, ∃ b ∈ images, a.height ≠ b.height) ∧
    (∀ e, concatenate_images_horizontally images = .error e →
        e = .dimensionMismatch) ∧
    (∀ r, concatenate_images_horizontally images = .ok r →
        r.width = (images.map Img.width).sum ∧
        (∀ a ∈ images, r.height = a.height) ∧
        (∀ k (hk : k < images.length) (x y : ℕ),
          x < (images.get ⟨k, hk⟩).width → y < r.height →
          r.px (widthsBefore images k + x) y =
            (images.get ⟨k, hk⟩).px x y)) := by
  match images, hne with
  | i0 :: rest, _ =>
    by_cases hmix : ((i0 :: rest).map Img.height).dedup.length > 1
    · have hcon : concatenate_images_horizontally (i0 :: rest) =
          .error .dimensionMismatch := by
        simp only [concatenate_images_horizontally]
        rw [if_pos hmix]
      have hex : ∃ a ∈ (i0 :: rest), ∃ b ∈ (i0 :: rest),
          a.height ≠ b.height := by
        by_contra hno
        push_neg at hno
        have hle : ((i0 :: rest).map Img.height).dedup.length ≤ 1 :=
          (dedup_length_le_one_iff _).2 (by
            intro a ha b hb
            simp only [List.mem_map] at ha hb
            obtain ⟨u, hu, rfl⟩ := ha
            obtain ⟨v, hv, rfl⟩ := hb
            exact hno u hu v hv)
        omega
      refine ⟨⟨fun _ => hex, fun _ => hcon⟩, ?_, ?_⟩
      · intro e he
        rw [hcon] at he
        exact (Except.error.inj he).symm
      · intro r hr
        rw [hcon] at hr
        exact Except.noConfusion hr
    · have huni : ∀ a ∈ (i0 :: rest), ∀ b ∈ (i0 :: rest),
          a.height = b.height := by
        intro a ha b hb
        exact (dedup_length_le_one_iff _).1 (by omega) a.height
          (List.mem_map_of_mem _ ha) b.height (List.mem_map_of_mem _ hb)
      have hcon : concatenate_images_horizontally (i0 :: rest) =
          .ok (((i0 :: rest).foldl
            (fun acc img => (acc.1.paste img acc.2 0, acc.2 + img.width))
            (Img.new (((i0 :: rest).map Img.width).sum) i0.height, 0)).1) := by
        simp only [concatenate_images_horizontally]
        rw [if_neg (by omega)]
      refine ⟨⟨?_, ?_⟩, ?_, ?_⟩
      · intro h
        rw [hcon] at h
        exact Except.noConfusion h
      · rintro ⟨a, ha, c, hc, hac⟩
        exact absurd (huni a ha c hc) hac
      · intro e he
        rw [hcon] at he
        exact Except.noConfusion he
      · intro r hr
        rw [hcon] at hr
        obtain rfl := Except.ok.inj hr
        have hd := concat_foldl_dims (i0 :: rest)
          (Img.new (((i0 :: rest).map Img.width).sum) i0.height) 0
        refine ⟨hd.1, ?_, ?_⟩
        · intro a ha
          rw [hd.2]
          exact huni i0 (List.mem_cons_self i0 rest) a ha
        · intro k hk x y hx hy
          have hy' : y < ((i0 :: rest).get ⟨k, hk⟩).height := by
            rw [huni ((i0 :: rest).get ⟨k, hk⟩) (List.get_mem _ _ _) i0
              (List.mem_cons_self i0 rest)]
            rw [hd.2] at hy
            exact hy
          have hp := concat_foldl_place (i0 :: rest)
            (Img.new (((i0 :: rest).map Img.width).sum) i0.height) 0 k hk
            x y hx hy'
          simpa using hp

/-- Witness for C6: two `1 × 1` images of equal height concatenate into a
`2 × 1` image; in particular the claim's success clause holds on them. -/
theorem concatenate_spec_witness :
    ([Img.mk 1 1 fun _ _ => 3, Img.mk 1 1 fun _ _ => 5] ≠
      ([] : List Img)) ∧
    ∀ r, concatenate_images_horizontally
        [Img.mk 1 1 fun _ _ => 3, Img.mk 1 1 fun _ _ => 5] = .ok r →
      r.width = ([Img.mk 1 1 fun _ _ => 3,
        Img.mk 1 1 fun _ _ => 5].map Img.width).sum :=
  ⟨by simp, fun r hr =>
    ((concatenate_spec
      [Img.mk 1 1 fun _ _ => 3, Img.mk 1 1 fun _ _ => 5]
      (by simp)).2.2 r hr).1⟩

/-- C3: for every image and valid split, concatenating the three outputs of
`split_book_cover` in order (back, spine, front) with
`concatenate_images_horizontally` reproduces the original image exactly,
pixel for pixel. -/
theorem split_concat_roundtrip (img : Img) (b f : ℕ)
    (hbf : b + f ≤ img.width) :
    ∃ bk sp fr r, split_book_cover img (b : ℤ) (f : ℤ) = .ok (bk, sp, fr) ∧
      concatenate_images_horizontally [bk, sp, fr] = .ok r ∧
      Img.Eq r img := by
  obtain ⟨bk, sp, fr, hsp, h1, h2, h3⟩ := split_book_cover_ok img b f hbf
  obtain ⟨hw1, hh1⟩ := crop_dims h1
  obtain ⟨hw2, hh2⟩ := crop_dims h2
  obtain ⟨hw3, hh3⟩ := crop_dims h3
  have hbk_w : bk.width = b := by omega
  have hsp_w : sp.width = img.width - b - f := by omega
  have hfr_w : fr.width = f := by omega
  have hbk_h : bk.height = img.height := by omega
  have hsp_h : sp.height = img.height := by omega
  have hfr_h : fr.height = img.height := by omega
  have hmap : [bk, sp, fr].map Img.height =
      [img.height, img.height, img.height] := by
    simp [hbk_h, hsp_h, hfr_h]
  have hmix : ¬ (([bk, sp, fr].map Img.height).dedup.length > 1) := by
    have hle := (dedup_length_le_one_iff
      ([bk, sp, fr].map Img.height)).2 (by
        rw [hmap]
        intro a ha c hc
        simp only [List.mem_cons, List.not_mem_nil, or_false] at ha hc
        rcases ha with rfl | rfl | rfl <;> rcases hc with rfl | rfl | rfl <;>
          rfl)
    omega
  have hcon : concatenate_images_horizontally [bk, sp, fr] =
      .ok (([bk, sp, fr].foldl
        (fun acc img => (acc.1.paste img acc.2 0, acc.2 + img.width))
        (Img.new (([bk, sp, fr].map Img.width).sum) bk.height, 0)).1) := by
    simp only [concatenate_images_horizontally]
    rw [if_neg hmix]
  have hd := concat_foldl_dims [bk, sp, fr]
    (Img.new (([bk, sp, fr].map Img.width).sum) bk.height) 0
  have hsum : ([bk, sp, fr].map Img.width).sum = img.width := by
    simp only [List.map_cons, List.map_nil, List.sum_cons, List.sum_nil]
    omega
  have hrw : (([bk, sp, fr].foldl
      (fun acc img => (acc.1.paste img acc.2 0, acc.2 + img.width))
      (Img.new (([bk, sp, fr].map Img.width).sum) bk.height, 0)).1).width =
      img.width := by
    rw [hd.1]
    exact hsum
  have hrh : (([bk, sp, fr].foldl
      (fun acc img => (acc.1.paste img acc.2 0, acc.2 + img.width))
      (Img.new (([bk, sp, fr].map Img.width).sum) bk.height, 0)).1).height =
      img.height := by
    rw [hd.2]
    exact hbk_h
  refine ⟨bk, sp, fr, _, hsp, hcon, hrw, hrh, ?_⟩
  intro x y hx hy
  rw [hrw] at hx
  rw [hrh] at hy
  rcases Nat.lt_or_ge x b with hxb | hxb
  · have hp : (([bk, sp, fr].foldl
        (fun acc img => (acc.1.paste img acc.2 0, acc.2 + img.width))
        (Img.new (([bk, sp, fr].map Img.width).sum) bk.height, 0)).1).px
          (0 + widthsBefore [bk, sp, fr] 0 + x) y = bk.px x y :=
      concat_foldl_place [bk, sp, fr]
        (Img.new (([bk, sp, fr].map Img.width).sum) bk.height) 0 0
        (by simp) x y (show x < bk.width by omega)
        (show y < bk.height by omega)
    have hco : 0 + widthsBefore [bk, sp, fr] 0 + x = x := by
      simp [widthsBefore]
    rw [hco] at hp
    rw [hp]
    have hpx := crop_px h1 x y (by omega) (by omega) (by omega) (by omega)
    rw [hpx]
    have ha : ((0 : ℤ) + (x : ℤ)).toNat = x := by omega
    have hb : ((0 : ℤ) + (y : ℤ)).toNat = y := by omega
    rw [ha, hb]
  · rcases Nat.lt_or_ge x (img.width - f) with hxs | hxs
    · have hp : (([bk, sp, fr].foldl
          (fun acc img => (acc.1.paste img acc.2 0, acc.2 + img.width))
          (Img.new (([bk, sp, fr].map Img.width).sum) bk.height, 0)).1).px
            (0 + widthsBefore [bk, sp, fr] 1 + (x - b)) y =
          sp.px (x - b) y :=
        concat_foldl_place [bk, sp, fr]
          (Img.new (([bk, sp, fr].map Img.width).sum) bk.height) 0 1
          (by simp) (x - b) y (show x - b < sp.width by omega)
          (show y < sp.height by omega)
      have hco : 0 + widthsBefore [bk, sp, fr] 1 + (x - b) = x := by
        have hwb : widthsBefore [bk, sp, fr] 1 = bk.width := by
          simp [widthsBefore]
        omega
      rw [hco] at hp
      rw [hp]
      have hpx := crop_px h2 (x - b) y (by omega) (by omega) (by omega)
        (by omega)
      rw [hpx]
      have ha : ((b : ℤ) + ((x - b : ℕ) : ℤ)).toNat = x := by omega
      have hb' : ((0 : ℤ) + (y : ℤ)).toNat = y := by omega
      rw [ha, hb']
    · have hp : (([bk, sp, fr].foldl
          (fun acc img => (acc.1.paste img acc.2 0, acc.2 + img.width))
          (Img.new (([bk, sp, fr].map Img.width).sum) bk.height, 0)).1).px
            (0 + widthsBefore [bk, sp, fr] 2 + (x - (img.width - f))) y =
          fr.px (x - (img.width - f)) y :=
        concat_foldl_place [bk, sp, fr]
          (Img.new (([bk, sp, fr].map Img.width).sum) bk.height) 0 2
          (by simp) (x - (img.width - f)) y
          (show x - (img.width - f) < fr.width by omega)
          (show y < fr.height by omega)
      have hco : 0 + widthsBefore [bk, sp, fr] 2 + (x - (img.width - f)) =
          x := by
        have hwb : widthsBefore [bk, sp, fr] 2 = bk.width + sp.width := by
          simp [widthsBefore]
        omega
      rw [hco] at hp
      rw [hp]
      have hpx := crop_px h3 (x - (img.width - f)) y (by omega) (by omega)
        (by omega) (by omega)
      rw [hpx]
      have ha : (((img.width : ℤ) - (f : ℤ)) +
          ((x - (img.width - f) : ℕ) : ℤ)).toNat = x := by omega
      have hb' : ((0 : ℤ) + (y : ℤ)).toNat = y := by omega
      rw [ha, hb']

/-- Witness for C3: the round trip on a concrete `3 × 2` image with
distinct pixels, split at `back_width = front_width = 1`. -/
theorem split_concat_roundtrip_witness :
    1 + 1 ≤ (Img.mk 3 2 fun x y => x + 10 * y).width ∧
    ∃ bk sp fr r,
      split_book_cover (Img.mk 3 2 fun x y => x + 10 * y)
        ((1 : ℕ) : ℤ) ((1 : ℕ) : ℤ) = .ok (bk, sp, fr) ∧
      concatenate_images_horizontally [bk, sp, fr] = .ok r ∧
      Img.Eq r (Img.mk 3 2 fun x y => x + 10 * y) :=
  ⟨by decide,
    split_concat_roundtrip (Img.mk 3 2 fun x y => x + 10 * y) 1 1
      (by decide)⟩

set_option maxHeartbeats 2000000 in
/-- The paste/fill assembly at the end of `add_stretched_border`, with the
four resized borders abstract: the result has the enlarged dimensions, the
center region is the original image, and the four corner squares are flat
fills with the given colors. -/
lemma border_assembly (img L Rb T Bo : Img) (cTL cTR cBL cBR : Pixel)
    (B : ℕ) (R : Img)
    (hR : R = (((((((((Img.new (img.width + 2 * B)
        (img.height + 2 * B)).paste img B B).paste L 0 B).paste Rb
        (img.width + 2 * B - B) B).paste T B 0).paste Bo B
        (img.height + 2 * B - B)).fill cTL 0 0 B B).fill cTR
        (img.width + 2 * B - B) 0 (img.width + 2 * B) B).fill cBL 0
        (img.height + 2 * B - B) B (img.height + 2 * B)).fill cBR
        (img.width + 2 * B - B) (img.height + 2 * B - B)
        (img.width + 2 * B) (img.height + 2 * B))
    (hLw : L.width = B) (hLh : L.height = img.height)
    (hRw : Rb.width = B) (hRh : Rb.height = img.height)
    (hTw : T.width = img.width) (hTh : T.height = B)
    (hBw : Bo.width = img.width) (hBh : Bo.height = B) :
    R.width = img.width + 2 * B ∧ R.height = img.height + 2 * B ∧
    (∀ x y, x < img.width → y < img.height →
      R.px (B + x) (B + y) = img.px x y) ∧
    (∀ x y, x < B → y < B →
      R.px x y = cTL ∧ R.px (B + img.width + x) y = cTR ∧
      R.px x (B + img.height + y) = cBL ∧
      R.px (B + img.width + x) (B + img.height + y) = cBR) := by
  subst hR
  refine ⟨rfl, rfl, ?_, ?_⟩
  · intro x y hx hy
    simp only [Img.paste, Img.fill, Img.new, hLw, hLh, hRw, hRh, hTw, hTh,
      hBw, hBh]
    split_ifs <;>
      first
        | rfl
        | omega
        | (have e1 : B + x - B = x := by omega
           have e2 : B + y - B = y := by omega
           rw [e1, e2])
  · intro x y hx hy
    refine ⟨?_, ?_, ?_, ?_⟩ <;>
      (simp only [Img.paste, Img.fill, Img.new, hLw, hLh, hRw, hRh, hTw,
        hTh, hBw, hBh]
       split_ifs <;> first | rfl | omega)

/-- `pilResize` to a positive size always succeeds, with the requested
dimensions. -/
lemma pilResize_ok (resample : Img → ℕ → ℕ → Img) (image : Img)
    (tw th : ℕ) (htw : 1 ≤ tw) (hth : 1 ≤ th) :
    ∃ r, pilResize resample image tw th = .ok r ∧
      r.width = tw ∧ r.height = th := by
  unfold pilResize
  split_ifs with h1 h2
  · exact ⟨image, rfl, h1.1, h1.2⟩
  · exact absurd h2 (by omega)
  · exact ⟨_, rfl, rfl, rfl⟩

/-- `pilResize` to width 0 from a source of nonzero width raises the
zero-size `ValueError`. -/
lemma pilResize_zero_width (resample : Img → ℕ → ℕ → Img) (image : Img)
    (th : ℕ) (hw : image.width ≠ 0) :
    pilResize resample image 0 th = .error .sizeNotPositive := by
  unfold pilResize
  rw [if_neg (fun h => hw h.1), if_pos (Or.inl (by omega))]

/-- C4 (amended: `B ≥ 1`; at `B = 0` the code instead raises the zero-size
resize error, see the counterexample): for `width, height ≥ 1` and any
`B ≥ 1`, `add_stretched_border` returns a `(w+2B) × (h+2B)` image whose
center `[B,B+w) × [B,B+h)` is a pixel-exact copy of the original and whose
four `B × B` corner squares are flat fills with the original's
corresponding corner pixel. -/
theorem add_stretched_border_spec (resample : Img → ℕ → ℕ → Img)
    (img : Img) (B S : ℕ) (hB : 1 ≤ B) (hS : 1 ≤ S) (hw : 1 ≤ img.width)
    (hh : 1 ≤ img.height) :
    ∃ r, add_stretched_border resample img B S = .ok r ∧
      r.width = img.width + 2 * B ∧ r.height = img.height + 2 * B ∧
      (∀ x y, x < img.width → y < img.height →
        r.px (B + x) (B + y) = img.px x y) ∧
      (∀ x y, x < B → y < B →
        r.px x y = img.px 0 0 ∧
        r.px (B + img.width + x) y = img.px (img.width - 1) 0 ∧
        r.px x (B + img.height + y) = img.px 0 (img.height - 1) ∧
        r.px (B + img.width + x) (B + img.height + y) =
          img.px (img.width - 1) (img.height - 1)) := by
  obtain ⟨c1, hc1⟩ : ∃ c, img.crop 0 0
      ((min S (min img.width img.height) : ℕ) : ℤ) (img.height : ℤ) =
      .ok c :=
    ⟨_, @crop_ok 0 0 ((min S (min img.width img.height) : ℕ) : ℤ)
      (img.height : ℤ) img (by omega) (by omega)⟩
  obtain ⟨c2, hc2⟩ : ∃ c, img.crop
      ((img.width : ℤ) - ((min S (min img.width img.height) : ℕ) : ℤ)) 0
      (img.width : ℤ) (img.height : ℤ) = .ok c :=
    ⟨_, @crop_ok
      ((img.width : ℤ) - ((min S (min img.width img.height) : ℕ) : ℤ)) 0
      (img.width : ℤ) (img.height : ℤ) img (by omega) (by omega)⟩
  obtain ⟨c3, hc3⟩ : ∃ c, img.crop 0 0 (img.width : ℤ)
      ((min S (min img.width img.height) : ℕ) : ℤ) = .ok c :=
    ⟨_, @crop_ok 0 0 (img.width : ℤ)
      ((min S (min img.width img.height) : ℕ) : ℤ) img (by omega)
      (by omega)⟩
  obtain ⟨c4, hc4⟩ : ∃ c, img.crop 0
      ((img.height : ℤ) - ((min S (min img.width img.height) : ℕ) : ℤ))
      (img.width : ℤ) (img.height : ℤ) = .ok c :=
    ⟨_, @crop_ok 0
      ((img.height : ℤ) - ((min S (min img.width img.height) : ℕ) : ℤ))
      (img.width : ℤ) (img.height : ℤ) img (by omega) (by omega)⟩
  obtain ⟨L, hL, hLw, hLh⟩ :=
    pilResize_ok resample c1 B img.height (by omega) (by omega)
  obtain ⟨Rb, hRb, hRw, hRh⟩ :=
    pilResize_ok resample c2 B img.height (by omega) (by omega)
  obtain ⟨T, hT, hTw, hTh⟩ :=
    pilResize_ok resample c3 img.width B (by omega) (by omega)
  obtain ⟨Bo, hBo, hBw, hBh⟩ :=
    pilResize_ok resample c4 img.width B (by omega) (by omega)
  rcases hab : add_stretched_border resample img B S with e | r
  · simp only [add_stretched_border, hc1, hL, hc2, hRb, hc3, hT, hc4, hBo,
      except_ok_bind, except_pure] at hab
    exact Except.noConfusion hab
  · have h' := hab
    simp only [add_stretched_border, hc1, hL, hc2, hRb, hc3, hT, hc4, hBo,
      except_ok_bind, except_pure, Except.ok.injEq] at h'
    have hprops := border_assembly img L Rb T Bo _ _ _ _ B r h'.symm
      hLw hLh hRw hRh hTw hTh hBw hBh
    exact ⟨r, rfl, hprops.1, hprops.2.1, hprops.2.2.1, hprops.2.2.2⟩

/-- Counterexample for C4 as frozen: the claim's range "every border size
`B ≥ 0`" includes `B = 0`, where `add_stretched_border` does not return an
image at all — the first `resize((0, height))` raises the zero-size
`ValueError`. -/
theorem add_stretched_border_spec_cex :
    add_stretched_border sampleResize (Img.mk 2 3 fun x y => x * y + 1)
      0 2 = .error .sizeNotPositive := by
  rfl

/-- Witness for C4: `add_stretched_border` with `sampleResize` on a
concrete `2 × 2` image with `B = 1`, `S = 1`. -/
theorem add_stretched_border_spec_witness :
    ∃ r, add_stretched_border sampleResize
        (Img.mk 2 2 fun x y => x + 2 * y) 1 1 = .ok r ∧
      r.width = (Img.mk 2 2 fun x y => x + 2 * y).width + 2 * 1 ∧
      r.height = (Img.mk 2 2 fun x y => x + 2 * y).height + 2 * 1 ∧
      (∀ x y, x < (Img.mk 2 2 fun x y => x + 2 * y).width →
        y < (Img.mk 2 2 fun x y => x + 2 * y).height →
        r.px (1 + x) (1 + y) = (Img.mk 2 2 fun x y => x + 2 * y).px x y) ∧
      (∀ x y, x < 1 → y < 1 →
        r.px x y = (Img.mk 2 2 fun x y => x + 2 * y).px 0 0 ∧
        r.px (1 + (Img.mk 2 2 fun x y => x + 2 * y).width + x) y =
          (Img.mk 2 2 fun x y => x + 2 * y).px
            ((Img.mk 2 2 fun x y => x + 2 * y).width - 1) 0 ∧
        r.px x (1 + (Img.mk 2 2 fun x y => x + 2 * y).height + y) =
          (Img.mk 2 2 fun x y => x + 2 * y).px 0
            ((Img.mk 2 2 fun x y => x + 2 * y).height - 1) ∧
        r.px (1 + (Img.mk 2 2 fun x y => x + 2 * y).width + x)
            (1 + (Img.mk 2 2 fun x y => x + 2 * y).height + y) =
          (Img.mk 2 2 fun x y => x + 2 * y).px
            ((Img.mk 2 2 fun x y => x + 2 * y).width - 1)
            ((Img.mk 2 2 fun x y => x + 2 * y).height - 1)) :=
  add_stretched_border_spec sampleResize
    (Img.mk 2 2 fun x y => x + 2 * y) 1 1 (by decide) (by decide)
    (by decide) (by decide)

/-- C5 (amended: the claim's "is the identity" is false of the code): for
every image of nonzero width and height (and stretch-sample width `≥ 1`),
`add_stretched_border` with `border_size_px = 0` returns no image — it
fails with Pillow's zero-size resize `ValueError`
(`height and width must be > 0`), raised when the left edge strip is
resized to width 0. -/
theorem add_stretched_border_zero_raises (resample : Img → ℕ → ℕ → Img)
    (img : Img) (S : ℕ) (hS : 1 ≤ S) (hw : 1 ≤ img.width)
    (hh : 1 ≤ img.height) :
    add_stretched_border resample img 0 S = .error .sizeNotPositive := by
  obtain ⟨c1, hc1⟩ : ∃ c, img.crop 0 0
      ((min S (min img.width img.height) : ℕ) : ℤ) (img.height : ℤ) =
      .ok c :=
    ⟨_, @crop_ok 0 0 ((min S (min img.width img.height) : ℕ) : ℤ)
      (img.height : ℤ) img (by omega) (by omega)⟩
  have hc1w : c1.width ≠ 0 := by
    have := (crop_dims hc1).1
    omega
  have hL := pilResize_zero_width resample c1 img.height hc1w
  simp only [add_stretched_border, hc1, hL, except_ok_bind,
    except_error_bind]

/-- Counterexample for C5 as frozen: on a concrete `3 × 2` image,
`add_stretched_border` with `border_size_px = 0` raises the zero-size
resize `ValueError` instead of returning the input unchanged. -/
theorem add_stretched_border_zero_id_cex :
    add_stretched_border sampleResize (Img.mk 3 2 fun x y => 5 * x + y)
      0 1 = .error .sizeNotPositive := by
  rfl

/-- Witness for C5 (amended): `add_stretched_border` with `B = 0` on a
concrete `2 × 2` image fails with the zero-size resize error. -/
theorem add_stretched_border_zero_raises_witness :
    add_stretched_border sampleResize (Img.mk 2 2 fun x y => 7 * x + y)
      0 1 = .error .sizeNotPositive :=
  add_stretched_border_zero_raises sampleResize
    (Img.mk 2 2 fun x y => 7 * x + y) 1 (by decide) (by decide) (by decide)

end BookCover
